import Mathlib

/-!
Verification of the cgroups v1 CPU controller (`src/cgroups/v1/cpu.rs`).

The controller applies the optional CPU sub-group of a resource
specification to a control-group scope directory: it conditionally writes
the five CPU interface files (`cpu.shares`, `cpu.cfs_period_us`,
`cpu.cfs_quota_us`, `cpu.rt_runtime_us`, `cpu.rt_period_us`) and then
attaches the target pid through the `cgroup.procs` membership file.

The filesystem is modelled as an explicit state: a list of existing
directories and an association list from paths to file contents.  A path is
its list of components.  Writes are threaded through this state, and every
performed write is also recorded in an event list so that ordering
properties can be stated.
-/

/-- A filesystem path, as its list of components. -/
abbrev FPath := List String

/-- The modelled filesystem: the set of existing directories and the
existing files with their textual contents.  Lookup uses the first entry
whose path matches. -/
structure FS where
  dirs : List FPath
  files : List (FPath × String)
deriving DecidableEq

/-- First-match lookup of a file's content in an association list. -/
def lookupF (files : List (FPath × String)) (p : FPath) : Option String :=
  (files.find? (fun e => e.1 = p)).map (fun e => e.2)

/-- Content of the file at `p`, `none` when no such file exists. -/
def FS.read (fs : FS) (p : FPath) : Option String :=
  lookupF fs.files p

/-- Replace the content of the first entry for `p`; no entry is created. -/
def updateF (files : List (FPath × String)) (p : FPath) (v : String) :
    List (FPath × String) :=
  match files with
  | [] => []
  | e :: es => if e.1 = p then (p, v) :: es else e :: updateF es p v

/-- Modelled from the spec: the File Primitive `common::write_cgroup_file`
is not under `src/`.  Per the spec it encodes the value as canonical
decimal text (done by the caller here) and performs one full write to the
named pseudo-file; a target file that does not exist is a hard error,
surfaced as a failure identifying the path. -/
def write_cgroup_file (fs : FS) (p : FPath) (v : String) : FS × Option FPath :=
  if (fs.read p).isSome then ({ fs with files := updateF fs.files p v }, none)
  else (fs, some p)

/-- Result of one apply call: the final filesystem, the writes this call
performed in order, and the path of the first failed write, if any. -/
structure ApplyResult where
  fs : FS
  writes : List (FPath × String)
  err : Option FPath
deriving DecidableEq

/-- One fallible write followed by a continuation, mirroring a Rust
`write_cgroup_file(..)?;` statement: on failure the call stops and reports
the path, on success the performed write is recorded and the rest runs. -/
def wstep (fs : FS) (p : FPath) (v : String) (k : FS → ApplyResult) :
    ApplyResult :=
  match write_cgroup_file fs p v with
  | (fs', none) =>
    let r := k fs'
    ⟨r.fs, (p, v) :: r.writes, r.err⟩
  | (fs', some e) => ⟨fs', [], some e⟩

/-- Run a list of writes in order, stopping at the first failure. -/
def runWrites (fs : FS) : List (FPath × String) → ApplyResult
  | [] => ⟨fs, [], none⟩
  | (p, v) :: ws =>
    match write_cgroup_file fs p v with
    | (fs', none) =>
      let r := runWrites fs' ws
      ⟨r.fs, (p, v) :: r.writes, r.err⟩
    | (fs', some e) => ⟨fs', [], some e⟩

/-- `if let Some(v) = field { if v != 0 { write(p, v)?; } }` for an
unsigned field: skip when absent or zero, else write the decimal text. -/
def optWriteU (fs : FS) (f : Option Nat) (p : FPath) (k : FS → ApplyResult) :
    ApplyResult :=
  match f with
  | some v => if v ≠ 0 then wstep fs p (Nat.repr v) k else k fs
  | none => k fs

/-- `if let Some(v) = field { if v != 0 { write(p, v)?; } }` for a signed
field: skip when absent or zero, else write the signed decimal text. -/
def optWriteI (fs : FS) (f : Option Int) (p : FPath) (k : FS → ApplyResult) :
    ApplyResult :=
  match f with
  | some v => if v ≠ 0 then wstep fs p (Int.repr v) k else k fs
  | none => k fs

def CGROUP_CPU_SHARES : String := "cpu.shares"

def CGROUP_CPU_QUOTA : String := "cpu.cfs_quota_us"

def CGROUP_CPU_PERIOD : String := "cpu.cfs_period_us"

def CGROUP_CPU_RT_RUNTIME : String := "cpu.rt_runtime_us"

def CGROUP_CPU_RT_PERIOD : String := "cpu.rt_period_us"

/-- Name of the membership pseudo-file, `common::CGROUP_PROCS`. -/
def CGROUP_PROCS : String := "cgroup.procs"

/-- The `oci_spec::LinuxCpu` resource sub-group (external input type):
`shares`, `period`, `realtime_period` are `Option<u64>`; `quota` and
`realtime_runtime` are `Option<i64>`; `cpus` and `mems` are cpuset fields
not read by this controller. -/
structure LinuxCpu where
  shares : Option Nat
  quota : Option Int
  period : Option Nat
  realtime_runtime : Option Int
  realtime_period : Option Nat
  cpus : Option String
  mems : Option String
deriving DecidableEq

/-- The `oci_spec::LinuxResources` tree (external input type), restricted
to the one sub-group this controller reads: the optional `cpu` group. -/
structure LinuxResources where
  cpu : Option LinuxCpu
deriving DecidableEq

/-- The interface files the kernel materialises inside a freshly created
CPU-controller scope directory, with their initial contents. -/
def cpuScopeFiles (root : FPath) : List (FPath × String) :=
  [(root ++ [CGROUP_CPU_SHARES], ""), (root ++ [CGROUP_CPU_PERIOD], ""),
   (root ++ [CGROUP_CPU_QUOTA], ""), (root ++ [CGROUP_CPU_RT_RUNTIME], ""),
   (root ++ [CGROUP_CPU_RT_PERIOD], ""), (root ++ [CGROUP_PROCS], "")]

/-- All initial segments of a path, from the root down to the path itself. -/
def pathInits : FPath → List FPath
  | [] => [[]]
  | a :: p => [] :: (pathInits p).map (fun q => a :: q)

/-- Modelled from the spec: `fs::create_dir_all` on the control-group
filesystem is not under `src/`.  Per the spec the scope directory is
created recursively if missing, with no error when it already exists, and
a freshly created scope is immediately writable ("calling apply against a
scope path that does not yet exist creates it (recursively) and succeeds,
given valid values"), so the kernel-materialised interface files of the
scope come into existence with it. -/
def create_dir_all (fs : FS) (root : FPath) : FS :=
  if root ∈ fs.dirs then fs
  else ⟨pathInits root ++ fs.dirs, fs.files ++ cpuScopeFiles root⟩

/-- `Cpu::apply` (the inherent method, `src/cgroups/v1/cpu.rs` lines
33-65): five guarded writes in declaration order — shares, period, quota,
realtime runtime, realtime period — each skipped when the field is absent
or zero, each aborting the call on failure. -/
def Cpu.apply (root_path : FPath) (fs : FS) (cpu : LinuxCpu) : ApplyResult :=
  optWriteU fs cpu.shares (root_path ++ [CGROUP_CPU_SHARES]) fun fs1 =>
  optWriteU fs1 cpu.period (root_path ++ [CGROUP_CPU_PERIOD]) fun fs2 =>
  optWriteI fs2 cpu.quota (root_path ++ [CGROUP_CPU_QUOTA]) fun fs3 =>
  optWriteI fs3 cpu.realtime_runtime (root_path ++ [CGROUP_CPU_RT_RUNTIME]) fun fs4 =>
  optWriteU fs4 cpu.realtime_period (root_path ++ [CGROUP_CPU_RT_PERIOD]) fun fs5 =>
  ⟨fs5, [], none⟩

/-- `<Cpu as Controller>::apply` (`src/cgroups/v1/cpu.rs` lines 20-29):
ensure the scope directory exists, apply the CPU sub-group when present
(aborting on its error), then write the pid to `cgroup.procs`. -/
def Controller.apply (linux_resources : LinuxResources) (cgroup_root : FPath)
    (pid : Nat) (fs : FS) : ApplyResult :=
  let fs0 := create_dir_all fs cgroup_root
  let r : ApplyResult :=
    match linux_resources.cpu with
    | some cpu => Cpu.apply cgroup_root fs0 cpu
    | none => ⟨fs0, [], none⟩
  match r.err with
  | some e => ⟨r.fs, r.writes, some e⟩
  | none =>
    match write_cgroup_file r.fs (cgroup_root ++ [CGROUP_PROCS]) (Nat.repr pid) with
    | (fs', none) =>
      ⟨fs', r.writes ++ [(cgroup_root ++ [CGROUP_PROCS], Nat.repr pid)], none⟩
    | (fs', some e) => ⟨fs', r.writes, some e⟩

/-- The write an unsigned field contributes: nothing when absent or zero,
else its one decimal write. -/
def uEntry (f : Option Nat) (p : FPath) : List (FPath × String) :=
  match f with
  | some v => if v ≠ 0 then [(p, Nat.repr v)] else []
  | none => []

/-- The write a signed field contributes: nothing when absent or zero,
else its one signed decimal write. -/
def iEntry (f : Option Int) (p : FPath) : List (FPath × String) :=
  match f with
  | some v => if v ≠ 0 then [(p, Int.repr v)] else []
  | none => []

/-- The full ordered list of field writes `Cpu::apply` attempts for a
given CPU sub-group: the present-and-non-zero fields in declaration
order. -/
def cpuFieldWrites (root : FPath) (cpu : LinuxCpu) : List (FPath × String) :=
  uEntry cpu.shares (root ++ [CGROUP_CPU_SHARES]) ++
  uEntry cpu.period (root ++ [CGROUP_CPU_PERIOD]) ++
  iEntry cpu.quota (root ++ [CGROUP_CPU_QUOTA]) ++
  iEntry cpu.realtime_runtime (root ++ [CGROUP_CPU_RT_RUNTIME]) ++
  uEntry cpu.realtime_period (root ++ [CGROUP_CPU_RT_PERIOD])

/-- The five CPU interface-file paths of a scope, in declaration order. -/
def cpuFieldPaths (root : FPath) : List FPath :=
  [root ++ [CGROUP_CPU_SHARES], root ++ [CGROUP_CPU_PERIOD],
   root ++ [CGROUP_CPU_QUOTA], root ++ [CGROUP_CPU_RT_RUNTIME],
   root ++ [CGROUP_CPU_RT_PERIOD]]

/-! ### Association-list lemmas -/

theorem snoc_inj (root : FPath) (a b : String) :
    root ++ [a] = root ++ [b] ↔ a = b := by
  constructor
  · intro h
    have h2 := List.append_cancel_left h
    exact (List.cons.injEq a [] b []).mp h2 |>.1
  · intro h
    rw [h]

theorem lookupF_cons_hit (e : FPath × String) (es : List (FPath × String))
    (p : FPath) (h : e.1 = p) : lookupF (e :: es) p = some e.2 := by
  simp [lookupF, List.find?, h]

theorem lookupF_cons_miss (e : FPath × String) (es : List (FPath × String))
    (p : FPath) (h : ¬e.1 = p) : lookupF (e :: es) p = lookupF es p := by
  simp [lookupF, List.find?, h]

theorem updateF_cons_hit (e : FPath × String) (es : List (FPath × String))
    (p : FPath) (v : String) (h : e.1 = p) :
    updateF (e :: es) p v = (p, v) :: es := by
  simp [updateF, h]

theorem updateF_cons_miss (e : FPath × String) (es : List (FPath × String))
    (p : FPath) (v : String) (h : ¬e.1 = p) :
    updateF (e :: es) p v = e :: updateF es p v := by
  simp [updateF, h]

theorem lookupF_updateF_ne (files : List (FPath × String)) (p q : FPath)
    (v : String) (h : p ≠ q) :
    lookupF (updateF files q v) p = lookupF files p := by
  induction files with
  | nil => rfl
  | cons e es ih =>
    by_cases he : e.1 = q
    · rw [updateF_cons_hit e es q v he]
      rw [lookupF_cons_miss (q, v) es p (fun hc => h hc.symm)]
      rw [lookupF_cons_miss e es p (fun hc => h (he ▸ hc).symm)]
    · rw [updateF_cons_miss e es q v he]
      by_cases hp : e.1 = p
      · rw [lookupF_cons_hit _ _ p hp, lookupF_cons_hit e es p hp]
      · rw [lookupF_cons_miss _ _ p hp, lookupF_cons_miss e es p hp, ih]

theorem lookupF_updateF_self (files : List (FPath × String)) (p : FPath)
    (v : String) (h : (lookupF files p).isSome) :
    lookupF (updateF files p v) p = some v := by
  induction files with
  | nil => simp [lookupF] at h
  | cons e es ih =>
    by_cases he : e.1 = p
    · rw [updateF_cons_hit e es p v he, lookupF_cons_hit (p, v) es p rfl]
    · rw [updateF_cons_miss e es p v he, lookupF_cons_miss e _ p he]
      rw [lookupF_cons_miss e es p he] at h
      exact ih h

theorem updateF_of_lookupF_eq (files : List (FPath × String)) (p : FPath)
    (v : String) (h : lookupF files p = some v) :
    updateF files p v = files := by
  induction files with
  | nil => rfl
  | cons e es ih =>
    by_cases he : e.1 = p
    · rw [lookupF_cons_hit e es p he] at h
      rw [updateF_cons_hit e es p v he]
      rcases e with ⟨e1, e2⟩
      simp only at he
      simp only [Option.some.injEq] at h
      rw [he, h]
    · rw [lookupF_cons_miss e es p he] at h
      rw [updateF_cons_miss e es p v he, ih h]

theorem updateF_of_lookupF_none (files : List (FPath × String)) (p : FPath)
    (v : String) (h : lookupF files p = none) :
    updateF files p v = files := by
  induction files with
  | nil => rfl
  | cons e es ih =>
    by_cases he : e.1 = p
    · rw [lookupF_cons_hit e es p he] at h
      exact absurd h (by simp)
    · rw [lookupF_cons_miss e es p he] at h
      rw [updateF_cons_miss e es p v he, ih h]

theorem lookupF_updateF_isSome (files : List (FPath × String)) (p q : FPath)
    (v : String) :
    (lookupF (updateF files q v) p).isSome = (lookupF files p).isSome := by
  by_cases hpq : p = q
  · subst hpq
    cases hval : lookupF files p with
    | none => rw [updateF_of_lookupF_none files p v hval, hval]
    | some w => simp [lookupF_updateF_self files p v (by simp [hval])]
  · rw [lookupF_updateF_ne files p q v hpq]

theorem lookupF_append (l1 l2 : List (FPath × String)) (p : FPath) :
    lookupF (l1 ++ l2) p =
      match lookupF l1 p with
      | some v => some v
      | none => lookupF l2 p := by
  induction l1 with
  | nil => simp [lookupF]
  | cons e es ih =>
    by_cases he : e.1 = p
    · rw [List.cons_append, lookupF_cons_hit e (es ++ l2) p he,
        lookupF_cons_hit e es p he]
    · rw [List.cons_append, lookupF_cons_miss e (es ++ l2) p he,
        lookupF_cons_miss e es p he, ih]

/-! ### Lemmas about the write primitive -/

theorem write_ok (fs : FS) (p : FPath) (v : String)
    (h : (fs.read p).isSome) :
    write_cgroup_file fs p v = ({ fs with files := updateF fs.files p v }, none) := by
  simp [write_cgroup_file, h]

theorem write_fail (fs : FS) (p : FPath) (v : String) (h : fs.read p = none) :
    write_cgroup_file fs p v = (fs, some p) := by
  simp [write_cgroup_file, h]

theorem write_read_ne (fs : FS) (p q : FPath) (v : String) (h : p ≠ q) :
    ((write_cgroup_file fs q v).1).read p = fs.read p := by
  by_cases hq : (fs.read q).isSome
  · rw [write_ok fs q v hq]
    exact lookupF_updateF_ne fs.files p q v h
  · rw [write_fail fs q v (Option.not_isSome_iff_eq_none.mp hq)]

theorem write_read_self (fs : FS) (p : FPath) (v : String)
    (h : (fs.read p).isSome) :
    ((write_cgroup_file fs p v).1).read p = some v := by
  rw [write_ok fs p v h]
  exact lookupF_updateF_self fs.files p v h

theorem write_read_isSome (fs : FS) (p q : FPath) (v : String) :
    (((write_cgroup_file fs q v).1).read p).isSome = (fs.read p).isSome := by
  by_cases hq : (fs.read q).isSome
  · rw [write_ok fs q v hq]
    exact lookupF_updateF_isSome fs.files p q v
  · rw [write_fail fs q v (Option.not_isSome_iff_eq_none.mp hq)]

theorem write_dirs (fs : FS) (q : FPath) (v : String) :
    ((write_cgroup_file fs q v).1).dirs = fs.dirs := by
  by_cases hq : (fs.read q).isSome
  · rw [write_ok fs q v hq]
  · rw [write_fail fs q v (Option.not_isSome_iff_eq_none.mp hq)]

/-! ### Lemmas about running a list of writes -/

theorem runWrites_cons_ok (fs : FS) (p : FPath) (v : String)
    (ws : List (FPath × String)) (h : (fs.read p).isSome) :
    runWrites fs ((p, v) :: ws) =
      ⟨(runWrites { fs with files := updateF fs.files p v } ws).fs,
       (p, v) :: (runWrites { fs with files := updateF fs.files p v } ws).writes,
       (runWrites { fs with files := updateF fs.files p v } ws).err⟩ := by
  simp [runWrites, write_cgroup_file, h]

theorem runWrites_cons_fail (fs : FS) (p : FPath) (v : String)
    (ws : List (FPath × String)) (h : fs.read p = none) :
    runWrites fs ((p, v) :: ws) = ⟨fs, [], some p⟩ := by
  simp [runWrites, write_cgroup_file, h]

theorem runWrites_read_ne (ws : List (FPath × String)) (fs : FS) (p : FPath)
    (h : p ∉ ws.map Prod.fst) :
    ((runWrites fs ws).fs).read p = fs.read p := by
  induction ws generalizing fs with
  | nil => rfl
  | cons e es ih =>
    rcases e with ⟨q, v⟩
    have hpq : p ≠ q := by
      intro hc
      exact h (by simp [hc])
    have h2 : p ∉ es.map Prod.fst := fun hc => h (by simp [hc])
    by_cases hq : (fs.read q).isSome
    · rw [runWrites_cons_ok fs q v es hq]
      have := ih { fs with files := updateF fs.files q v } h2
      simp only [this]
      exact lookupF_updateF_ne fs.files p q v hpq
    · rw [runWrites_cons_fail fs q v es (Option.not_isSome_iff_eq_none.mp hq)]

theorem runWrites_dirs (ws : List (FPath × String)) (fs : FS) :
    ((runWrites fs ws).fs).dirs = fs.dirs := by
  induction ws generalizing fs with
  | nil => rfl
  | cons e es ih =>
    rcases e with ⟨q, v⟩
    by_cases hq : (fs.read q).isSome
    · rw [runWrites_cons_ok fs q v es hq]
      exact ih { fs with files := updateF fs.files q v }
    · rw [runWrites_cons_fail fs q v es (Option.not_isSome_iff_eq_none.mp hq)]

theorem runWrites_read_isSome (ws : List (FPath × String)) (fs : FS)
    (p : FPath) :
    (((runWrites fs ws).fs).read p).isSome = (fs.read p).isSome := by
  induction ws generalizing fs with
  | nil => rfl
  | cons e es ih =>
    rcases e with ⟨q, v⟩
    by_cases hq : (fs.read q).isSome
    · rw [runWrites_cons_ok fs q v es hq]
      have := ih { fs with files := updateF fs.files q v }
      simp only [this]
      exact lookupF_updateF_isSome fs.files p q v
    · rw [runWrites_cons_fail fs q v es (Option.not_isSome_iff_eq_none.mp hq)]

theorem runWrites_err_none (ws : List (FPath × String)) (fs : FS)
    (h : ∀ pv ∈ ws, (fs.read pv.1).isSome) :
    (runWrites fs ws).err = none := by
  induction ws generalizing fs with
  | nil => rfl
  | cons e es ih =>
    rcases e with ⟨q, v⟩
    have hq : (fs.read q).isSome := h (q, v) (by simp)
    rw [runWrites_cons_ok fs q v es hq]
    apply ih
    intro pv hpv
    have : (fs.read pv.1).isSome := h pv (by simp [hpv])
    show (lookupF (updateF fs.files q v) pv.1).isSome
    rw [lookupF_updateF_isSome fs.files pv.1 q v]
    exact this

theorem runWrites_writes_of_err_none (ws : List (FPath × String)) (fs : FS)
    (h : (runWrites fs ws).err = none) :
    (runWrites fs ws).writes = ws := by
  induction ws generalizing fs with
  | nil => rfl
  | cons e es ih =>
    rcases e with ⟨q, v⟩
    by_cases hq : (fs.read q).isSome
    · rw [runWrites_cons_ok fs q v es hq] at h ⊢
      simp only at h ⊢
      rw [ih { fs with files := updateF fs.files q v } h]
    · rw [runWrites_cons_fail fs q v es (Option.not_isSome_iff_eq_none.mp hq)] at h
      exact absurd h (by simp)

theorem runWrites_writes_take (ws : List (FPath × String)) (fs : FS) :
    ∃ n, (runWrites fs ws).writes = ws.take n := by
  induction ws generalizing fs with
  | nil => exact ⟨0, rfl⟩
  | cons e es ih =>
    rcases e with ⟨q, v⟩
    by_cases hq : (fs.read q).isSome
    · rw [runWrites_cons_ok fs q v es hq]
      rcases ih { fs with files := updateF fs.files q v } with ⟨n, hn⟩
      exact ⟨n + 1, by simp [hn]⟩
    · rw [runWrites_cons_fail fs q v es (Option.not_isSome_iff_eq_none.mp hq)]
      exact ⟨0, rfl⟩

theorem runWrites_writes_mem (ws : List (FPath × String)) (fs : FS)
    (pv : FPath × String) (h : pv ∈ (runWrites fs ws).writes) : pv ∈ ws := by
  rcases runWrites_writes_take ws fs with ⟨n, hn⟩
  rw [hn] at h
  exact List.take_subset n ws h

theorem runWrites_read_success (ws : List (FPath × String)) (fs : FS)
    (herr : (runWrites fs ws).err = none) (hnd : (ws.map Prod.fst).Nodup) :
    ∀ pv ∈ ws, ((runWrites fs ws).fs).read pv.1 = some pv.2 := by
  induction ws generalizing fs with
  | nil => intro pv hpv; simp at hpv
  | cons e es ih =>
    rcases e with ⟨q, v⟩
    by_cases hq : (fs.read q).isSome
    · rw [runWrites_cons_ok fs q v es hq] at herr ⊢
      simp only at herr ⊢
      intro pv hpv
      rcases List.mem_cons.mp hpv with hpv | hpv
      · subst hpv
        have hqes : q ∉ es.map Prod.fst := by
          simp only [List.map_cons, List.nodup_cons] at hnd
          exact hnd.1
        rw [runWrites_read_ne es _ q hqes]
        show lookupF (updateF fs.files q v) q = some v
        exact lookupF_updateF_self fs.files q v hq
      · have hnd2 : (es.map Prod.fst).Nodup := by
          simp only [List.map_cons, List.nodup_cons] at hnd
          exact hnd.2
        exact ih { fs with files := updateF fs.files q v } herr hnd2 pv hpv
    · rw [runWrites_cons_fail fs q v es (Option.not_isSome_iff_eq_none.mp hq)] at herr
      exact absurd herr (by simp)

theorem runWrites_idem (ws : List (FPath × String)) (fs : FS)
    (hnd : (ws.map Prod.fst).Nodup) (herr : (runWrites fs ws).err = none) :
    runWrites ((runWrites fs ws).fs) ws = ⟨(runWrites fs ws).fs, ws, none⟩ := by
  have hread := runWrites_read_success ws fs herr hnd
  have hall : ∀ pv ∈ ws, (((runWrites fs ws).fs).read pv.1).isSome := by
    intro pv hpv
    rw [hread pv hpv]
    rfl
  generalize hG : (runWrites fs ws).fs = g at hread hall
  clear hG herr fs
  induction ws with
  | nil => rfl
  | cons e es ih =>
    rcases e with ⟨q, v⟩
    have hq : g.read q = some v := hread (q, v) (by simp)
    rw [runWrites_cons_ok g q v es (by rw [hq]; rfl)]
    have hgfix : updateF g.files q v = g.files := updateF_of_lookupF_eq g.files q v hq
    have hgsame : { g with files := updateF g.files q v } = g := by
      rw [hgfix]
    rw [hgsame]
    have hnd2 : (es.map Prod.fst).Nodup := by
      simp only [List.map_cons, List.nodup_cons] at hnd
      exact hnd.2
    have hih := ih hnd2 (fun pv hpv => hread pv (by simp [hpv]))
      (fun pv hpv => hall pv (by simp [hpv]))
    rw [hih]

/-! ### `Cpu.apply` as a run of its field-write list -/

theorem wstep_runWrites (fs : FS) (p : FPath) (v : String)
    (k : FS → ApplyResult) (ws : List (FPath × String))
    (hk : ∀ g, k g = runWrites g ws) :
    wstep fs p v k = runWrites fs ((p, v) :: ws) := by
  by_cases hq : (fs.read p).isSome
  · rw [runWrites_cons_ok fs p v ws hq]
    simp only [wstep, write_ok fs p v hq, hk]
  · rw [runWrites_cons_fail fs p v ws (Option.not_isSome_iff_eq_none.mp hq)]
    simp only [wstep, write_fail fs p v (Option.not_isSome_iff_eq_none.mp hq)]

theorem optWriteU_runWrites (fs : FS) (f : Option Nat) (p : FPath)
    (k : FS → ApplyResult) (ws : List (FPath × String))
    (hk : ∀ g, k g = runWrites g ws) :
    optWriteU fs f p k = runWrites fs (uEntry f p ++ ws) := by
  cases f with
  | none => simpa [optWriteU, uEntry] using hk fs
  | some v =>
    by_cases hv : v = 0
    · simpa [optWriteU, uEntry, hv] using hk fs
    · simp only [optWriteU, uEntry, hv, ne_eq, not_false_eq_true, if_true,
        List.cons_append, List.nil_append]
      exact wstep_runWrites fs p (Nat.repr v) k ws hk

theorem optWriteI_runWrites (fs : FS) (f : Option Int) (p : FPath)
    (k : FS → ApplyResult) (ws : List (FPath × String))
    (hk : ∀ g, k g = runWrites g ws) :
    optWriteI fs f p k = runWrites fs (iEntry f p ++ ws) := by
  cases f with
  | none => simpa [optWriteI, iEntry] using hk fs
  | some v =>
    by_cases hv : v = 0
    · simpa [optWriteI, iEntry, hv] using hk fs
    · simp only [optWriteI, iEntry, hv, ne_eq, not_false_eq_true, if_true,
        List.cons_append, List.nil_append]
      exact wstep_runWrites fs p (Int.repr v) k ws hk

theorem cpu_apply_eq_runWrites (root : FPath) (fs : FS) (cpu : LinuxCpu) :
    Cpu.apply root fs cpu = runWrites fs (cpuFieldWrites root cpu) := by
  have h5 : ∀ g : FS,
      optWriteU g cpu.realtime_period (root ++ [CGROUP_CPU_RT_PERIOD])
        (fun fs5 => ⟨fs5, [], none⟩) =
      runWrites g (uEntry cpu.realtime_period (root ++ [CGROUP_CPU_RT_PERIOD]) ++ []) := by
    intro g
    exact optWriteU_runWrites g _ _ _ [] (fun g' => rfl)
  have h4 : ∀ g : FS,
      optWriteI g cpu.realtime_runtime (root ++ [CGROUP_CPU_RT_RUNTIME])
        (fun fs4 => optWriteU fs4 cpu.realtime_period (root ++ [CGROUP_CPU_RT_PERIOD])
          (fun fs5 => ⟨fs5, [], none⟩)) =
      runWrites g (iEntry cpu.realtime_runtime (root ++ [CGROUP_CPU_RT_RUNTIME]) ++
        (uEntry cpu.realtime_period (root ++ [CGROUP_CPU_RT_PERIOD]) ++ [])) := by
    intro g
    exact optWriteI_runWrites g _ _ _ _ h5
  have h3 : ∀ g : FS,
      optWriteI g cpu.quota (root ++ [CGROUP_CPU_QUOTA])
        (fun fs3 => optWriteI fs3 cpu.realtime_runtime (root ++ [CGROUP_CPU_RT_RUNTIME])
          (fun fs4 => optWriteU fs4 cpu.realtime_period (root ++ [CGROUP_CPU_RT_PERIOD])
            (fun fs5 => ⟨fs5, [], none⟩))) =
      runWrites g (iEntry cpu.quota (root ++ [CGROUP_CPU_QUOTA]) ++
        (iEntry cpu.realtime_runtime (root ++ [CGROUP_CPU_RT_RUNTIME]) ++
          (uEntry cpu.realtime_period (root ++ [CGROUP_CPU_RT_PERIOD]) ++ []))) := by
    intro g
    exact optWriteI_runWrites g _ _ _ _ h4
  have h2 : ∀ g : FS,
      optWriteU g cpu.period (root ++ [CGROUP_CPU_PERIOD])
        (fun fs2 => optWriteI fs2 cpu.quota (root ++ [CGROUP_CPU_QUOTA])
          (fun fs3 => optWriteI fs3 cpu.realtime_runtime (root ++ [CGROUP_CPU_RT_RUNTIME])
            (fun fs4 => optWriteU fs4 cpu.realtime_period (root ++ [CGROUP_CPU_RT_PERIOD])
              (fun fs5 => ⟨fs5, [], none⟩)))) =
      runWrites g (uEntry cpu.period (root ++ [CGROUP_CPU_PERIOD]) ++
        (iEntry cpu.quota (root ++ [CGROUP_CPU_QUOTA]) ++
          (iEntry cpu.realtime_runtime (root ++ [CGROUP_CPU_RT_RUNTIME]) ++
            (uEntry cpu.realtime_period (root ++ [CGROUP_CPU_RT_PERIOD]) ++ [])))) := by
    intro g
    exact optWriteU_runWrites g _ _ _ _ h3
  have h1 :
      Cpu.apply root fs cpu =
      runWrites fs (uEntry cpu.shares (root ++ [CGROUP_CPU_SHARES]) ++
        (uEntry cpu.period (root ++ [CGROUP_CPU_PERIOD]) ++
          (iEntry cpu.quota (root ++ [CGROUP_CPU_QUOTA]) ++
            (iEntry cpu.realtime_runtime (root ++ [CGROUP_CPU_RT_RUNTIME]) ++
              (uEntry cpu.realtime_period (root ++ [CGROUP_CPU_RT_PERIOD]) ++ []))))) :=
    optWriteU_runWrites fs _ _ _ _ h2
  rw [h1]
  simp [cpuFieldWrites, List.append_assoc]

/-! ### The field-write list: paths, distinctness, membership -/

/-- The six interface-file paths of a scope: the five CPU field files and
the membership file. -/
def scopeFilePaths (root : FPath) : List FPath :=
  cpuFieldPaths root ++ [root ++ [CGROUP_PROCS]]

theorem cpuScopeFiles_keys (root : FPath) :
    (cpuScopeFiles root).map Prod.fst = scopeFilePaths root := rfl

theorem mem_uEntry_paths (f : Option Nat) (p q : FPath)
    (h : q ∈ (uEntry f p).map Prod.fst) :
    q = p ∧ f ≠ none ∧ f ≠ some 0 := by
  cases f with
  | none => simp [uEntry] at h
  | some v =>
    by_cases hv : v = 0
    · simp [uEntry, hv] at h
    · simp only [uEntry, hv, ne_eq, not_false_eq_true, if_true,
        List.map_cons, List.map_nil, List.mem_singleton] at h
      exact ⟨h, by simp, by simp [hv]⟩

theorem mem_iEntry_paths (f : Option Int) (p q : FPath)
    (h : q ∈ (iEntry f p).map Prod.fst) :
    q = p ∧ f ≠ none ∧ f ≠ some 0 := by
  cases f with
  | none => simp [iEntry] at h
  | some v =>
    by_cases hv : v = 0
    · simp [iEntry, hv] at h
    · simp only [iEntry, hv, ne_eq, not_false_eq_true, if_true,
        List.map_cons, List.map_nil, List.mem_singleton] at h
      exact ⟨h, by simp, by simp [hv]⟩

theorem uEntry_paths_sublist (f : Option Nat) (p : FPath) :
    List.Sublist ((uEntry f p).map Prod.fst) [p] := by
  cases f with
  | none => exact List.nil_sublist [p]
  | some v =>
    by_cases hv : v = 0
    · simp [uEntry, hv]
    · simp [uEntry, hv]

theorem iEntry_paths_sublist (f : Option Int) (p : FPath) :
    List.Sublist ((iEntry f p).map Prod.fst) [p] := by
  cases f with
  | none => exact List.nil_sublist [p]
  | some v =>
    by_cases hv : v = 0
    · simp [iEntry, hv]
    · simp [iEntry, hv]

theorem cpuFieldWrites_paths_sublist (root : FPath) (cpu : LinuxCpu) :
    List.Sublist ((cpuFieldWrites root cpu).map Prod.fst) (cpuFieldPaths root) := by
  have hshape : cpuFieldPaths root =
      ((([root ++ [CGROUP_CPU_SHARES]] ++ [root ++ [CGROUP_CPU_PERIOD]]) ++
        [root ++ [CGROUP_CPU_QUOTA]]) ++ [root ++ [CGROUP_CPU_RT_RUNTIME]]) ++
        [root ++ [CGROUP_CPU_RT_PERIOD]] := rfl
  rw [hshape, cpuFieldWrites]
  simp only [List.map_append]
  exact ((((uEntry_paths_sublist _ _).append (uEntry_paths_sublist _ _)).append
    (iEntry_paths_sublist _ _)).append (iEntry_paths_sublist _ _)).append
    (uEntry_paths_sublist _ _)

theorem cpuFieldPaths_nodup (root : FPath) : (cpuFieldPaths root).Nodup := by
  simp [cpuFieldPaths, snoc_inj, CGROUP_CPU_SHARES, CGROUP_CPU_PERIOD,
    CGROUP_CPU_QUOTA, CGROUP_CPU_RT_RUNTIME, CGROUP_CPU_RT_PERIOD]

theorem cpuFieldWrites_paths_nodup (root : FPath) (cpu : LinuxCpu) :
    ((cpuFieldWrites root cpu).map Prod.fst).Nodup :=
  (cpuFieldPaths_nodup root).sublist (cpuFieldWrites_paths_sublist root cpu)

theorem mem_cpuFieldWrites_paths (root : FPath) (cpu : LinuxCpu) (q : FPath)
    (h : q ∈ (cpuFieldWrites root cpu).map Prod.fst) : q ∈ cpuFieldPaths root :=
  (cpuFieldWrites_paths_sublist root cpu).subset h

theorem shares_entry_mem (root : FPath) (cpu : LinuxCpu) (v : Nat)
    (h : cpu.shares = some v) (hv : v ≠ 0) :
    (root ++ [CGROUP_CPU_SHARES], Nat.repr v) ∈ cpuFieldWrites root cpu := by
  simp [cpuFieldWrites, uEntry, h, hv]

theorem period_entry_mem (root : FPath) (cpu : LinuxCpu) (v : Nat)
    (h : cpu.period = some v) (hv : v ≠ 0) :
    (root ++ [CGROUP_CPU_PERIOD], Nat.repr v) ∈ cpuFieldWrites root cpu := by
  simp [cpuFieldWrites, uEntry, h, hv]

theorem quota_entry_mem (root : FPath) (cpu : LinuxCpu) (v : Int)
    (h : cpu.quota = some v) (hv : v ≠ 0) :
    (root ++ [CGROUP_CPU_QUOTA], Int.repr v) ∈ cpuFieldWrites root cpu := by
  simp [cpuFieldWrites, iEntry, h, hv]

theorem rt_runtime_entry_mem (root : FPath) (cpu : LinuxCpu) (v : Int)
    (h : cpu.realtime_runtime = some v) (hv : v ≠ 0) :
    (root ++ [CGROUP_CPU_RT_RUNTIME], Int.repr v) ∈ cpuFieldWrites root cpu := by
  simp [cpuFieldWrites, iEntry, h, hv]

theorem rt_period_entry_mem (root : FPath) (cpu : LinuxCpu) (v : Nat)
    (h : cpu.realtime_period = some v) (hv : v ≠ 0) :
    (root ++ [CGROUP_CPU_RT_PERIOD], Nat.repr v) ∈ cpuFieldWrites root cpu := by
  simp [cpuFieldWrites, uEntry, h, hv]

theorem sharesPath_not_written (root : FPath) (cpu : LinuxCpu)
    (h : cpu.shares = none ∨ cpu.shares = some 0) :
    root ++ [CGROUP_CPU_SHARES] ∉ (cpuFieldWrites root cpu).map Prod.fst := by
  intro hmem
  simp only [cpuFieldWrites, List.map_append, List.mem_append] at hmem
  rcases hmem with ((((h1 | h2) | h3) | h4) | h5)
  · rcases mem_uEntry_paths _ _ _ h1 with ⟨-, hn, hz⟩
    rcases h with h | h
    · exact hn h
    · exact hz h
  · have := ((snoc_inj root _ _).mp (mem_uEntry_paths _ _ _ h2).1)
    exact absurd this (by decide)
  · have := ((snoc_inj root _ _).mp (mem_iEntry_paths _ _ _ h3).1)
    exact absurd this (by decide)
  · have := ((snoc_inj root _ _).mp (mem_iEntry_paths _ _ _ h4).1)
    exact absurd this (by decide)
  · have := ((snoc_inj root _ _).mp (mem_uEntry_paths _ _ _ h5).1)
    exact absurd this (by decide)

theorem periodPath_not_written (root : FPath) (cpu : LinuxCpu)
    (h : cpu.period = none ∨ cpu.period = some 0) :
    root ++ [CGROUP_CPU_PERIOD] ∉ (cpuFieldWrites root cpu).map Prod.fst := by
  intro hmem
  simp only [cpuFieldWrites, List.map_append, List.mem_append] at hmem
  rcases hmem with ((((h1 | h2) | h3) | h4) | h5)
  · have := ((snoc_inj root _ _).mp (mem_uEntry_paths _ _ _ h1).1)
    exact absurd this (by decide)
  · rcases mem_uEntry_paths _ _ _ h2 with ⟨-, hn, hz⟩
    rcases h with h | h
    · exact hn h
    · exact hz h
  · have := ((snoc_inj root _ _).mp (mem_iEntry_paths _ _ _ h3).1)
    exact absurd this (by decide)
  · have := ((snoc_inj root _ _).mp (mem_iEntry_paths _ _ _ h4).1)
    exact absurd this (by decide)
  · have := ((snoc_inj root _ _).mp (mem_uEntry_paths _ _ _ h5).1)
    exact absurd this (by decide)

theorem quotaPath_not_written (root : FPath) (cpu : LinuxCpu)
    (h : cpu.quota = none ∨ cpu.quota = some 0) :
    root ++ [CGROUP_CPU_QUOTA] ∉ (cpuFieldWrites root cpu).map Prod.fst := by
  intro hmem
  simp only [cpuFieldWrites, List.map_append, List.mem_append] at hmem
  rcases hmem with ((((h1 | h2) | h3) | h4) | h5)
  · have := ((snoc_inj root _ _).mp (mem_uEntry_paths _ _ _ h1).1)
    exact absurd this (by decide)
  · have := ((snoc_inj root _ _).mp (mem_uEntry_paths _ _ _ h2).1)
    exact absurd this (by decide)
  · rcases mem_iEntry_paths _ _ _ h3 with ⟨-, hn, hz⟩
    rcases h with h | h
    · exact hn h
    · exact hz h
  · have := ((snoc_inj root _ _).mp (mem_iEntry_paths _ _ _ h4).1)
    exact absurd this (by decide)
  · have := ((snoc_inj root _ _).mp (mem_uEntry_paths _ _ _ h5).1)
    exact absurd this (by decide)

theorem rtRuntimePath_not_written (root : FPath) (cpu : LinuxCpu)
    (h : cpu.realtime_runtime = none ∨ cpu.realtime_runtime = some 0) :
    root ++ [CGROUP_CPU_RT_RUNTIME] ∉ (cpuFieldWrites root cpu).map Prod.fst := by
  intro hmem
  simp only [cpuFieldWrites, List.map_append, List.mem_append] at hmem
  rcases hmem with ((((h1 | h2) | h3) | h4) | h5)
  · have := ((snoc_inj root _ _).mp (mem_uEntry_paths _ _ _ h1).1)
    exact absurd this (by decide)
  · have := ((snoc_inj root _ _).mp (mem_uEntry_paths _ _ _ h2).1)
    exact absurd this (by decide)
  · have := ((snoc_inj root _ _).mp (mem_iEntry_paths _ _ _ h3).1)
    exact absurd this (by decide)
  · rcases mem_iEntry_paths _ _ _ h4 with ⟨-, hn, hz⟩
    rcases h with h | h
    · exact hn h
    · exact hz h
  · have := ((snoc_inj root _ _).mp (mem_uEntry_paths _ _ _ h5).1)
    exact absurd this (by decide)

theorem rtPeriodPath_not_written (root : FPath) (cpu : LinuxCpu)
    (h : cpu.realtime_period = none ∨ cpu.realtime_period = some 0) :
    root ++ [CGROUP_CPU_RT_PERIOD] ∉ (cpuFieldWrites root cpu).map Prod.fst := by
  intro hmem
  simp only [cpuFieldWrites, List.map_append, List.mem_append] at hmem
  rcases hmem with ((((h1 | h2) | h3) | h4) | h5)
  · have := ((snoc_inj root _ _).mp (mem_uEntry_paths _ _ _ h1).1)
    exact absurd this (by decide)
  · have := ((snoc_inj root _ _).mp (mem_uEntry_paths _ _ _ h2).1)
    exact absurd this (by decide)
  · have := ((snoc_inj root _ _).mp (mem_iEntry_paths _ _ _ h3).1)
    exact absurd this (by decide)
  · have := ((snoc_inj root _ _).mp (mem_iEntry_paths _ _ _ h4).1)
    exact absurd this (by decide)
  · rcases mem_uEntry_paths _ _ _ h5 with ⟨-, hn, hz⟩
    rcases h with h | h
    · exact hn h
    · exact hz h

/-! ### Lemmas about scope-directory creation -/

theorem lookupF_isSome_of_mem_keys (files : List (FPath × String)) (p : FPath)
    (h : p ∈ files.map Prod.fst) : (lookupF files p).isSome := by
  induction files with
  | nil => simp at h
  | cons e es ih =>
    by_cases he : e.1 = p
    · rw [lookupF_cons_hit e es p he]
      rfl
    · rw [lookupF_cons_miss e es p he]
      apply ih
      rcases List.mem_cons.mp h with h | h
      · exact absurd h.symm he
      · exact h

theorem lookupF_none_of_not_mem_keys (files : List (FPath × String)) (p : FPath)
    (h : p ∉ files.map Prod.fst) : lookupF files p = none := by
  induction files with
  | nil => rfl
  | cons e es ih =>
    by_cases he : e.1 = p
    · exact absurd (by simp [he.symm]) h
    · rw [lookupF_cons_miss e es p he]
      exact ih (fun hc => h (by simp [hc]))

theorem self_mem_pathInits (p : FPath) : p ∈ pathInits p := by
  induction p with
  | nil => simp [pathInits]
  | cons a q ih => simp [pathInits, ih]

theorem create_dir_all_of_mem (fs : FS) (root : FPath) (h : root ∈ fs.dirs) :
    create_dir_all fs root = fs := by
  simp [create_dir_all, h]

theorem root_mem_create_dir_all (fs : FS) (root : FPath) :
    root ∈ (create_dir_all fs root).dirs := by
  by_cases h : root ∈ fs.dirs
  · rw [create_dir_all_of_mem fs root h]
    exact h
  · simp only [create_dir_all, h, if_false]
    exact List.mem_append_left _ (self_mem_pathInits root)

theorem inits_mem_create_dir_all (fs : FS) (root : FPath) (q : FPath)
    (hfresh : root ∉ fs.dirs) (hq : q ∈ pathInits root) :
    q ∈ (create_dir_all fs root).dirs := by
  simp only [create_dir_all, hfresh, if_false]
  exact List.mem_append_left _ hq

theorem create_dir_all_read_fresh (fs : FS) (root : FPath) (q : FPath)
    (hfresh : root ∉ fs.dirs) (hq : q ∈ scopeFilePaths root) :
    ((create_dir_all fs root).read q).isSome := by
  simp only [create_dir_all, hfresh, if_false]
  show (lookupF (fs.files ++ cpuScopeFiles root) q).isSome
  rw [lookupF_append]
  cases hold : lookupF fs.files q with
  | some w => rfl
  | none =>
    simp only []
    apply lookupF_isSome_of_mem_keys
    rw [cpuScopeFiles_keys]
    exact hq

theorem create_dir_all_read_frame (fs : FS) (root : FPath) (q : FPath)
    (hq : q ∉ scopeFilePaths root) :
    (create_dir_all fs root).read q = fs.read q := by
  by_cases h : root ∈ fs.dirs
  · rw [create_dir_all_of_mem fs root h]
  · simp only [create_dir_all, h, if_false]
    show lookupF (fs.files ++ cpuScopeFiles root) q = lookupF fs.files q
    rw [lookupF_append]
    have hnone : lookupF (cpuScopeFiles root) q = none := by
      apply lookupF_none_of_not_mem_keys
      rw [cpuScopeFiles_keys]
      exact hq
    cases hold : lookupF fs.files q with
    | some w => rfl
    | none => simpa using hnone

theorem create_dir_all_read_isSome (fs : FS) (root : FPath) (q : FPath)
    (h : (fs.read q).isSome) : ((create_dir_all fs root).read q).isSome := by
  by_cases hm : root ∈ fs.dirs
  · rw [create_dir_all_of_mem fs root hm]
    exact h
  · simp only [create_dir_all, hm, if_false]
    show (lookupF (fs.files ++ cpuScopeFiles root) q).isSome
    rw [lookupF_append]
    cases hold : lookupF fs.files q with
    | some w => rfl
    | none =>
      rw [FS.read, hold] at h
      simp at h

/-! ### Case lemmas for the Controller apply -/

theorem runWrites_writes_paths_sub (ws : List (FPath × String)) (fs : FS)
    (q : FPath) (h : q ∈ ((runWrites fs ws).writes).map Prod.fst) :
    q ∈ ws.map Prod.fst := by
  rcases List.mem_map.mp h with ⟨pv, hpv, rfl⟩
  exact List.mem_map_of_mem _ (runWrites_writes_mem ws fs pv hpv)

theorem controller_apply_cpu_fail (res : LinuxResources) (root : FPath)
    (pid : Nat) (fs : FS) (cpu : LinuxCpu) (e : FPath)
    (hcpu : res.cpu = some cpu)
    (herr : (Cpu.apply root (create_dir_all fs root) cpu).err = some e) :
    Controller.apply res root pid fs =
      ⟨(Cpu.apply root (create_dir_all fs root) cpu).fs,
       (Cpu.apply root (create_dir_all fs root) cpu).writes, some e⟩ := by
  simp [Controller.apply, hcpu, herr]

theorem controller_apply_cpu_ok (res : LinuxResources) (root : FPath)
    (pid : Nat) (fs : FS) (cpu : LinuxCpu)
    (hcpu : res.cpu = some cpu)
    (herr : (Cpu.apply root (create_dir_all fs root) cpu).err = none)
    (hpr : (((Cpu.apply root (create_dir_all fs root) cpu).fs).read
      (root ++ [CGROUP_PROCS])).isSome) :
    Controller.apply res root pid fs =
      ⟨(write_cgroup_file (Cpu.apply root (create_dir_all fs root) cpu).fs
          (root ++ [CGROUP_PROCS]) (Nat.repr pid)).1,
       (Cpu.apply root (create_dir_all fs root) cpu).writes ++
         [(root ++ [CGROUP_PROCS], Nat.repr pid)], none⟩ := by
  simp [Controller.apply, hcpu, herr, write_ok _ _ _ hpr]

theorem controller_apply_cpu_ok_procs_fail (res : LinuxResources) (root : FPath)
    (pid : Nat) (fs : FS) (cpu : LinuxCpu)
    (hcpu : res.cpu = some cpu)
    (herr : (Cpu.apply root (create_dir_all fs root) cpu).err = none)
    (hpr : ((Cpu.apply root (create_dir_all fs root) cpu).fs).read
      (root ++ [CGROUP_PROCS]) = none) :
    Controller.apply res root pid fs =
      ⟨(Cpu.apply root (create_dir_all fs root) cpu).fs,
       (Cpu.apply root (create_dir_all fs root) cpu).writes,
       some (root ++ [CGROUP_PROCS])⟩ := by
  simp [Controller.apply, hcpu, herr, write_fail _ _ _ hpr]

theorem controller_apply_nocpu (res : LinuxResources) (root : FPath)
    (pid : Nat) (fs : FS) (hcpu : res.cpu = none)
    (hpr : (((create_dir_all fs root)).read (root ++ [CGROUP_PROCS])).isSome) :
    Controller.apply res root pid fs =
      ⟨(write_cgroup_file (create_dir_all fs root)
          (root ++ [CGROUP_PROCS]) (Nat.repr pid)).1,
       [(root ++ [CGROUP_PROCS], Nat.repr pid)], none⟩ := by
  simp [Controller.apply, hcpu, write_ok _ _ _ hpr]

theorem controller_apply_nocpu_procs_fail (res : LinuxResources) (root : FPath)
    (pid : Nat) (fs : FS) (hcpu : res.cpu = none)
    (hpr : ((create_dir_all fs root)).read (root ++ [CGROUP_PROCS]) = none) :
    Controller.apply res root pid fs =
      ⟨create_dir_all fs root, [], some (root ++ [CGROUP_PROCS])⟩ := by
  simp [Controller.apply, hcpu, write_fail _ _ _ hpr]

/-! ### The claims -/

/-- C1: for every `LinuxCpu` sub-group and each of the five CPU fields, if
the field is absent or present with value zero, `Cpu::apply` performs no
write to that field's interface file, so the file's content is unchanged
by the call. -/
theorem cpu_apply_skip_unset_or_zero (fs : FS) (root : FPath) (cpu : LinuxCpu) :
    ((cpu.shares = none ∨ cpu.shares = some 0) →
      ((Cpu.apply root fs cpu).fs).read (root ++ [CGROUP_CPU_SHARES]) =
        fs.read (root ++ [CGROUP_CPU_SHARES]) ∧
      root ++ [CGROUP_CPU_SHARES] ∉ ((Cpu.apply root fs cpu).writes).map Prod.fst) ∧
    ((cpu.period = none ∨ cpu.period = some 0) →
      ((Cpu.apply root fs cpu).fs).read (root ++ [CGROUP_CPU_PERIOD]) =
        fs.read (root ++ [CGROUP_CPU_PERIOD]) ∧
      root ++ [CGROUP_CPU_PERIOD] ∉ ((Cpu.apply root fs cpu).writes).map Prod.fst) ∧
    ((cpu.quota = none ∨ cpu.quota = some 0) →
      ((Cpu.apply root fs cpu).fs).read (root ++ [CGROUP_CPU_QUOTA]) =
        fs.read (root ++ [CGROUP_CPU_QUOTA]) ∧
      root ++ [CGROUP_CPU_QUOTA] ∉ ((Cpu.apply root fs cpu).writes).map Prod.fst) ∧
    ((cpu.realtime_runtime = none ∨ cpu.realtime_runtime = some 0) →
      ((Cpu.apply root fs cpu).fs).read (root ++ [CGROUP_CPU_RT_RUNTIME]) =
        fs.read (root ++ [CGROUP_CPU_RT_RUNTIME]) ∧
      root ++ [CGROUP_CPU_RT_RUNTIME] ∉ ((Cpu.apply root fs cpu).writes).map Prod.fst) ∧
    ((cpu.realtime_period = none ∨ cpu.realtime_period = some 0) →
      ((Cpu.apply root fs cpu).fs).read (root ++ [CGROUP_CPU_RT_PERIOD]) =
        fs.read (root ++ [CGROUP_CPU_RT_PERIOD]) ∧
      root ++ [CGROUP_CPU_RT_PERIOD] ∉ ((Cpu.apply root fs cpu).writes).map Prod.fst) := by
  refine ⟨fun h => ?_, fun h => ?_, fun h => ?_, fun h => ?_, fun h => ?_⟩ <;>
    rw [cpu_apply_eq_runWrites]
  · exact ⟨runWrites_read_ne _ fs _ (sharesPath_not_written root cpu h),
      fun hc => (sharesPath_not_written root cpu h)
        (runWrites_writes_paths_sub _ fs _ hc)⟩
  · exact ⟨runWrites_read_ne _ fs _ (periodPath_not_written root cpu h),
      fun hc => (periodPath_not_written root cpu h)
        (runWrites_writes_paths_sub _ fs _ hc)⟩
  · exact ⟨runWrites_read_ne _ fs _ (quotaPath_not_written root cpu h),
      fun hc => (quotaPath_not_written root cpu h)
        (runWrites_writes_paths_sub _ fs _ hc)⟩
  · exact ⟨runWrites_read_ne _ fs _ (rtRuntimePath_not_written root cpu h),
      fun hc => (rtRuntimePath_not_written root cpu h)
        (runWrites_writes_paths_sub _ fs _ hc)⟩
  · exact ⟨runWrites_read_ne _ fs _ (rtPeriodPath_not_written root cpu h),
      fun hc => (rtPeriodPath_not_written root cpu h)
        (runWrites_writes_paths_sub _ fs _ hc)⟩

/-- Witness for C1: a spec whose shares field is absent leaves an empty
shares file empty and performs no write to it. -/
theorem cpu_apply_skip_unset_or_zero_witness :
    ((Cpu.apply ["scope"]
        ⟨[["scope"]], [(["scope", "cpu.shares"], ""), (["scope", "cpu.cfs_period_us"], "")]⟩
        ⟨none, some 0, some 100000, none, none, none, none⟩).fs).read
      (["scope"] ++ [CGROUP_CPU_SHARES]) =
      (⟨[["scope"]], [(["scope", "cpu.shares"], ""), (["scope", "cpu.cfs_period_us"], "")]⟩ : FS).read
        (["scope"] ++ [CGROUP_CPU_SHARES]) ∧
    ["scope"] ++ [CGROUP_CPU_SHARES] ∉
      ((Cpu.apply ["scope"]
        ⟨[["scope"]], [(["scope", "cpu.shares"], ""), (["scope", "cpu.cfs_period_us"], "")]⟩
        ⟨none, some 0, some 100000, none, none, none, none⟩).writes).map Prod.fst :=
  (cpu_apply_skip_unset_or_zero
    ⟨[["scope"]], [(["scope", "cpu.shares"], ""), (["scope", "cpu.cfs_period_us"], "")]⟩
    ["scope"] ⟨none, some 0, some 100000, none, none, none, none⟩).1 (Or.inl rfl)

/-- C2: for every CPU field that is present and non-zero, after a
successful `Cpu::apply` the corresponding interface file contains exactly
the canonical decimal text of the value. -/
theorem cpu_apply_exact_decimal (fs : FS) (root : FPath) (cpu : LinuxCpu)
    (h : (Cpu.apply root fs cpu).err = none) :
    (∀ v : Nat, cpu.shares = some v → v ≠ 0 →
      ((Cpu.apply root fs cpu).fs).read (root ++ [CGROUP_CPU_SHARES]) =
        some (Nat.repr v)) ∧
    (∀ v : Nat, cpu.period = some v → v ≠ 0 →
      ((Cpu.apply root fs cpu).fs).read (root ++ [CGROUP_CPU_PERIOD]) =
        some (Nat.repr v)) ∧
    (∀ v : Int, cpu.quota = some v → v ≠ 0 →
      ((Cpu.apply root fs cpu).fs).read (root ++ [CGROUP_CPU_QUOTA]) =
        some (Int.repr v)) ∧
    (∀ v : Int, cpu.realtime_runtime = some v → v ≠ 0 →
      ((Cpu.apply root fs cpu).fs).read (root ++ [CGROUP_CPU_RT_RUNTIME]) =
        some (Int.repr v)) ∧
    (∀ v : Nat, cpu.realtime_period = some v → v ≠ 0 →
      ((Cpu.apply root fs cpu).fs).read (root ++ [CGROUP_CPU_RT_PERIOD]) =
        some (Nat.repr v)) := by
  rw [cpu_apply_eq_runWrites] at h ⊢
  have hrd := runWrites_read_success (cpuFieldWrites root cpu) fs h
    (cpuFieldWrites_paths_nodup root cpu)
  exact ⟨fun v hv hz => hrd _ (shares_entry_mem root cpu v hv hz),
    fun v hv hz => hrd _ (period_entry_mem root cpu v hv hz),
    fun v hv hz => hrd _ (quota_entry_mem root cpu v hv hz),
    fun v hv hz => hrd _ (rt_runtime_entry_mem root cpu v hv hz),
    fun v hv hz => hrd _ (rt_period_entry_mem root cpu v hv hz)⟩

/-- Witness for C2: the end-to-end scenario — spec with shares 2048
against a scope whose shares file is empty leaves the shares file
containing exactly the four characters 2048. -/
theorem cpu_apply_exact_decimal_witness :
    ((Cpu.apply ["scope"] ⟨[["scope"]], [(["scope", "cpu.shares"], "")]⟩
        ⟨some 2048, none, none, none, none, none, none⟩).fs).read
      (["scope"] ++ [CGROUP_CPU_SHARES]) = some "2048" :=
  (cpu_apply_exact_decimal ⟨[["scope"]], [(["scope", "cpu.shares"], "")]⟩
    ["scope"] ⟨some 2048, none, none, none, none, none, none⟩ rfl).1
    2048 rfl (by decide)

/-- C8: the skip predicate excludes only zero — for the signed fields
quota and realtime runtime, every present negative value is written, in
signed decimal, to the corresponding interface file. -/
theorem cpu_apply_negative_written (fs : FS) (root : FPath) (cpu : LinuxCpu)
    (h : (Cpu.apply root fs cpu).err = none) :
    (∀ v : Int, cpu.quota = some v → v < 0 →
      (root ++ [CGROUP_CPU_QUOTA], Int.repr v) ∈ (Cpu.apply root fs cpu).writes ∧
      ((Cpu.apply root fs cpu).fs).read (root ++ [CGROUP_CPU_QUOTA]) =
        some (Int.repr v)) ∧
    (∀ v : Int, cpu.realtime_runtime = some v → v < 0 →
      (root ++ [CGROUP_CPU_RT_RUNTIME], Int.repr v) ∈ (Cpu.apply root fs cpu).writes ∧
      ((Cpu.apply root fs cpu).fs).read (root ++ [CGROUP_CPU_RT_RUNTIME]) =
        some (Int.repr v)) := by
  rw [cpu_apply_eq_runWrites] at h ⊢
  have hrd := runWrites_read_success (cpuFieldWrites root cpu) fs h
    (cpuFieldWrites_paths_nodup root cpu)
  have hwr := runWrites_writes_of_err_none (cpuFieldWrites root cpu) fs h
  constructor
  · intro v hv hneg
    have hz : v ≠ 0 := ne_of_lt hneg
    have hm := quota_entry_mem root cpu v hv hz
    exact ⟨by rw [hwr]; exact hm, hrd _ hm⟩
  · intro v hv hneg
    have hz : v ≠ 0 := ne_of_lt hneg
    have hm := rt_runtime_entry_mem root cpu v hv hz
    exact ⟨by rw [hwr]; exact hm, hrd _ hm⟩

/-- Witness for C8: quota -1 (the kernel's unlimited sentinel) is written
as the two characters -1. -/
theorem cpu_apply_negative_written_witness :
    (["scope"] ++ [CGROUP_CPU_QUOTA], Int.repr (-1)) ∈
      (Cpu.apply ["scope"] ⟨[["scope"]], [(["scope", "cpu.cfs_quota_us"], "")]⟩
        ⟨none, some (-1), none, none, none, none, none⟩).writes ∧
    ((Cpu.apply ["scope"] ⟨[["scope"]], [(["scope", "cpu.cfs_quota_us"], "")]⟩
        ⟨none, some (-1), none, none, none, none, none⟩).fs).read
      (["scope"] ++ [CGROUP_CPU_QUOTA]) = some "-1" :=
  (cpu_apply_negative_written ⟨[["scope"]], [(["scope", "cpu.cfs_quota_us"], "")]⟩
    ["scope"] ⟨none, some (-1), none, none, none, none, none⟩ (by decide)).1
    (-1) rfl (by decide)

theorem procs_not_mem_cpuFieldPaths (root : FPath) :
    root ++ [CGROUP_PROCS] ∉ cpuFieldPaths root := by
  intro h
  simp [cpuFieldPaths, snoc_inj, CGROUP_PROCS, CGROUP_CPU_SHARES,
    CGROUP_CPU_PERIOD, CGROUP_CPU_QUOTA, CGROUP_CPU_RT_RUNTIME,
    CGROUP_CPU_RT_PERIOD] at h

theorem runWrites_fail (ws : List (FPath × String)) (fs : FS) (e : FPath)
    (hnd : (ws.map Prod.fst).Nodup)
    (herr : (runWrites fs ws).err = some e) :
    ∃ n v' rest,
      ws.drop n = (e, v') :: rest ∧
      (runWrites fs ws).writes = ws.take n ∧
      (∀ pv ∈ ws.take n, ((runWrites fs ws).fs).read pv.1 = some pv.2) ∧
      (∀ pv ∈ ws.drop n, ((runWrites fs ws).fs).read pv.1 = fs.read pv.1) := by
  induction ws generalizing fs with
  | nil => simp [runWrites] at herr
  | cons hd es ih =>
    rcases hd with ⟨q, v⟩
    by_cases hq : (fs.read q).isSome
    · rw [runWrites_cons_ok fs q v es hq] at herr ⊢
      simp only at herr ⊢
      have hqes : q ∉ es.map Prod.fst := by
        simp only [List.map_cons, List.nodup_cons] at hnd
        exact hnd.1
      have hnd2 : (es.map Prod.fst).Nodup := by
        simp only [List.map_cons, List.nodup_cons] at hnd
        exact hnd.2
      rcases ih { fs with files := updateF fs.files q v } hnd2 herr with
        ⟨n, v', rest, hdropEq, hw, htake, hdrop⟩
      refine ⟨n + 1, v', rest, ?_, ?_, ?_, ?_⟩
      · rw [List.drop_succ_cons]
        exact hdropEq
      · rw [List.take_succ_cons, hw]
      · intro pv hpv
        rw [List.take_succ_cons] at hpv
        rcases List.mem_cons.mp hpv with hpv | hpv
        · subst hpv
          rw [runWrites_read_ne es _ q hqes]
          show lookupF (updateF fs.files q v) q = some v
          exact lookupF_updateF_self fs.files q v hq
        · exact htake pv hpv
      · intro pv hpv
        rw [List.drop_succ_cons] at hpv
        rw [hdrop pv hpv]
        have hpv' : pv.1 ∈ es.map Prod.fst :=
          List.mem_map_of_mem _ (List.drop_subset n es hpv)
        have hne : pv.1 ≠ q := fun hc => hqes (hc ▸ hpv')
        exact lookupF_updateF_ne fs.files pv.1 q v hne
    · rw [runWrites_cons_fail fs q v es (Option.not_isSome_iff_eq_none.mp hq)]
        at herr ⊢
      simp only at herr ⊢
      injection herr with he
      refine ⟨0, v, es, ?_, rfl, by simp, ?_⟩
      · rw [List.drop_zero, he]
      · intro pv hpv
        trivial

/-- C3: once any write performed by the Cpu apply fails, the call aborts
immediately and returns that first error: the performed writes are exactly
the present-and-non-zero fields that precede the failing one in the fixed
order and their files keep the newly written values (no rollback), the
failing field and every remaining field's file are unchanged, and the
membership write is never attempted. -/
theorem controller_apply_fail_fast (res : LinuxResources) (root : FPath)
    (pid : Nat) (fs : FS) (cpu : LinuxCpu) (e : FPath)
    (hcpu : res.cpu = some cpu)
    (herr : (Cpu.apply root (create_dir_all fs root) cpu).err = some e) :
    (Controller.apply res root pid fs).err = some e ∧
    (Controller.apply res root pid fs).fs =
      (Cpu.apply root (create_dir_all fs root) cpu).fs ∧
    (Controller.apply res root pid fs).writes =
      (Cpu.apply root (create_dir_all fs root) cpu).writes ∧
    (∃ n v' rest,
      (cpuFieldWrites root cpu).drop n = (e, v') :: rest ∧
      (Controller.apply res root pid fs).writes = (cpuFieldWrites root cpu).take n ∧
      (∀ pv ∈ (cpuFieldWrites root cpu).take n,
        ((Controller.apply res root pid fs).fs).read pv.1 = some pv.2) ∧
      (∀ pv ∈ (cpuFieldWrites root cpu).drop n,
        ((Controller.apply res root pid fs).fs).read pv.1 =
          (create_dir_all fs root).read pv.1)) ∧
    root ++ [CGROUP_PROCS] ∉
      ((Controller.apply res root pid fs).writes).map Prod.fst ∧
    ((Controller.apply res root pid fs).fs).read (root ++ [CGROUP_PROCS]) =
      (create_dir_all fs root).read (root ++ [CGROUP_PROCS]) := by
  have hctrl := controller_apply_cpu_fail res root pid fs cpu e hcpu herr
  rw [hctrl, cpu_apply_eq_runWrites root (create_dir_all fs root) cpu]
  rw [cpu_apply_eq_runWrites root (create_dir_all fs root) cpu] at herr
  refine ⟨rfl, rfl, rfl, ?_, ?_, ?_⟩
  · rcases runWrites_fail (cpuFieldWrites root cpu) (create_dir_all fs root) e
      (cpuFieldWrites_paths_nodup root cpu) herr with
      ⟨n, v', rest, hdropEq, hw, htake, hdrop⟩
    exact ⟨n, v', rest, hdropEq, hw, htake, hdrop⟩
  · intro hc
    exact procs_not_mem_cpuFieldPaths root (mem_cpuFieldWrites_paths root cpu _
      (runWrites_writes_paths_sub _ _ _ hc))
  · exact runWrites_read_ne _ _ _ (fun hc =>
      procs_not_mem_cpuFieldPaths root (mem_cpuFieldWrites_paths root cpu _ hc))

/-- Witness for C3: a scope whose quota file was removed — the call
reports the quota path as the first error, the performed writes are
exactly the shares and period writes that precede it (still applied), the
realtime fields are unchanged, and the membership file is never written. -/
theorem controller_apply_fail_fast_witness :
    (Controller.apply ⟨some ⟨some 2048, some 50000, some 100000, none, none, none, none⟩⟩
        ["scope"] 42
        ⟨[["scope"]], [(["scope", "cpu.shares"], ""), (["scope", "cpu.cfs_period_us"], ""),
          (["scope", "cgroup.procs"], "")]⟩).err =
      some (["scope"] ++ [CGROUP_CPU_QUOTA]) ∧
    (∃ n v' rest,
      (cpuFieldWrites ["scope"]
          ⟨some 2048, some 50000, some 100000, none, none, none, none⟩).drop n =
        (["scope"] ++ [CGROUP_CPU_QUOTA], v') :: rest ∧
      (Controller.apply ⟨some ⟨some 2048, some 50000, some 100000, none, none, none, none⟩⟩
          ["scope"] 42
          ⟨[["scope"]], [(["scope", "cpu.shares"], ""), (["scope", "cpu.cfs_period_us"], ""),
            (["scope", "cgroup.procs"], "")]⟩).writes =
        (cpuFieldWrites ["scope"]
          ⟨some 2048, some 50000, some 100000, none, none, none, none⟩).take n ∧
      (∀ pv ∈ (cpuFieldWrites ["scope"]
          ⟨some 2048, some 50000, some 100000, none, none, none, none⟩).take n,
        ((Controller.apply ⟨some ⟨some 2048, some 50000, some 100000, none, none, none, none⟩⟩
            ["scope"] 42
            ⟨[["scope"]], [(["scope", "cpu.shares"], ""), (["scope", "cpu.cfs_period_us"], ""),
              (["scope", "cgroup.procs"], "")]⟩).fs).read pv.1 = some pv.2) ∧
      (∀ pv ∈ (cpuFieldWrites ["scope"]
          ⟨some 2048, some 50000, some 100000, none, none, none, none⟩).drop n,
        ((Controller.apply ⟨some ⟨some 2048, some 50000, some 100000, none, none, none, none⟩⟩
            ["scope"] 42
            ⟨[["scope"]], [(["scope", "cpu.shares"], ""), (["scope", "cpu.cfs_period_us"], ""),
              (["scope", "cgroup.procs"], "")]⟩).fs).read pv.1 =
          (create_dir_all
            ⟨[["scope"]], [(["scope", "cpu.shares"], ""), (["scope", "cpu.cfs_period_us"], ""),
              (["scope", "cgroup.procs"], "")]⟩ ["scope"]).read pv.1)) ∧
    ["scope"] ++ [CGROUP_PROCS] ∉
      ((Controller.apply ⟨some ⟨some 2048, some 50000, some 100000, none, none, none, none⟩⟩
          ["scope"] 42
          ⟨[["scope"]], [(["scope", "cpu.shares"], ""), (["scope", "cpu.cfs_period_us"], ""),
            (["scope", "cgroup.procs"], "")]⟩).writes).map Prod.fst :=
  ⟨(controller_apply_fail_fast
      ⟨some ⟨some 2048, some 50000, some 100000, none, none, none, none⟩⟩ ["scope"] 42
      ⟨[["scope"]], [(["scope", "cpu.shares"], ""), (["scope", "cpu.cfs_period_us"], ""),
        (["scope", "cgroup.procs"], "")]⟩
      ⟨some 2048, some 50000, some 100000, none, none, none, none⟩
      (["scope"] ++ [CGROUP_CPU_QUOTA]) rfl (by decide)).1,
   (controller_apply_fail_fast
      ⟨some ⟨some 2048, some 50000, some 100000, none, none, none, none⟩⟩ ["scope"] 42
      ⟨[["scope"]], [(["scope", "cpu.shares"], ""), (["scope", "cpu.cfs_period_us"], ""),
        (["scope", "cgroup.procs"], "")]⟩
      ⟨some 2048, some 50000, some 100000, none, none, none, none⟩
      (["scope"] ++ [CGROUP_CPU_QUOTA]) rfl (by decide)).2.2.2.1,
   (controller_apply_fail_fast
      ⟨some ⟨some 2048, some 50000, some 100000, none, none, none, none⟩⟩ ["scope"] 42
      ⟨[["scope"]], [(["scope", "cpu.shares"], ""), (["scope", "cpu.cfs_period_us"], ""),
        (["scope", "cgroup.procs"], "")]⟩
      ⟨some 2048, some 50000, some 100000, none, none, none, none⟩
      (["scope"] ++ [CGROUP_CPU_QUOTA]) rfl (by decide)).2.2.2.2.1⟩
/-- Counterexample to C6 as stated: when a write fails (here the shares
file is missing), the sequence of writes performed by the call is not the
full list of present-and-non-zero fields — it is empty. -/
theorem cpu_apply_write_order_counterexample :
    ¬((Cpu.apply ["scope"] ⟨[["scope"]], []⟩
        ⟨some 2048, none, none, none, none, none, none⟩).writes =
      cpuFieldWrites ["scope"] ⟨some 2048, none, none, none, none, none, none⟩) := by
  decide

/-- C6 (amended): the interface files written by one `Cpu::apply` call are
exactly the present-and-non-zero fields in the fixed declaration order
shares, period, quota, realtime runtime, realtime period when every write
succeeds; when a write fails, the call has performed exactly an initial
segment of that ordered sequence. -/
theorem cpu_apply_write_order (fs : FS) (root : FPath) (cpu : LinuxCpu) :
    ((Cpu.apply root fs cpu).err = none →
      (Cpu.apply root fs cpu).writes = cpuFieldWrites root cpu) ∧
    (∃ n, (Cpu.apply root fs cpu).writes = (cpuFieldWrites root cpu).take n) := by
  rw [cpu_apply_eq_runWrites]
  exact ⟨fun h => runWrites_writes_of_err_none _ fs h, runWrites_writes_take _ fs⟩

/-- Witness for C6 (amended): a successful call writes exactly its
present-and-non-zero fields in order. -/
theorem cpu_apply_write_order_witness :
    (Cpu.apply ["scope"]
        ⟨[["scope"]], [(["scope", "cpu.shares"], ""), (["scope", "cpu.cfs_period_us"], "")]⟩
        ⟨some 2048, none, some 100000, none, none, none, none⟩).writes =
      cpuFieldWrites ["scope"] ⟨some 2048, none, some 100000, none, none, none, none⟩ :=
  (cpu_apply_write_order
    ⟨[["scope"]], [(["scope", "cpu.shares"], ""), (["scope", "cpu.cfs_period_us"], "")]⟩
    ["scope"] ⟨some 2048, none, some 100000, none, none, none, none⟩).1 (by decide)

/-- C7: applying the same CPU sub-group twice in succession against the
same scope, both calls succeeding, yields the same final file contents as
applying it once. -/
theorem cpu_apply_idempotent (fs fs1 fs2 : FS) (root : FPath) (cpu : LinuxCpu)
    (w1 w2 : List (FPath × String))
    (h1 : Cpu.apply root fs cpu = ⟨fs1, w1, none⟩)
    (h2 : Cpu.apply root fs1 cpu = ⟨fs2, w2, none⟩) :
    fs2 = fs1 := by
  rw [cpu_apply_eq_runWrites] at h1 h2
  have e0 : (runWrites fs (cpuFieldWrites root cpu)).err = none := by rw [h1]
  have e1 : (runWrites fs (cpuFieldWrites root cpu)).fs = fs1 := by rw [h1]
  have hid := runWrites_idem (cpuFieldWrites root cpu) fs
    (cpuFieldWrites_paths_nodup root cpu) e0
  rw [e1, h2] at hid
  exact congrArg ApplyResult.fs hid

/-- Witness for C7: applying shares 2048 twice to the same scope leaves
the same filesystem as applying it once. -/
theorem cpu_apply_idempotent_witness :
    (⟨[["scope"]], [(["scope", "cpu.shares"], "2048")]⟩ : FS) =
      ⟨[["scope"]], [(["scope", "cpu.shares"], "2048")]⟩ :=
  cpu_apply_idempotent ⟨[["scope"]], [(["scope", "cpu.shares"], "")]⟩
    ⟨[["scope"]], [(["scope", "cpu.shares"], "2048")]⟩
    ⟨[["scope"]], [(["scope", "cpu.shares"], "2048")]⟩
    ["scope"] ⟨some 2048, none, none, none, none, none, none⟩
    [(["scope", "cpu.shares"], "2048")] [(["scope", "cpu.shares"], "2048")]
    (by decide) (by decide)

theorem cpu_apply_dirs (root : FPath) (fs : FS) (cpu : LinuxCpu) :
    ((Cpu.apply root fs cpu).fs).dirs = fs.dirs := by
  rw [cpu_apply_eq_runWrites]
  exact runWrites_dirs _ fs

theorem cpu_apply_read_frame (root : FPath) (fs : FS) (cpu : LinuxCpu)
    (p : FPath) (h : p ∉ cpuFieldPaths root) :
    ((Cpu.apply root fs cpu).fs).read p = fs.read p := by
  rw [cpu_apply_eq_runWrites]
  exact runWrites_read_ne _ fs p
    (fun hc => h (mem_cpuFieldWrites_paths root cpu p hc))

theorem cpu_apply_writes_paths (root : FPath) (fs : FS) (cpu : LinuxCpu)
    (q : FPath) (h : q ∈ ((Cpu.apply root fs cpu).writes).map Prod.fst) :
    q ∈ cpuFieldPaths root := by
  rw [cpu_apply_eq_runWrites] at h
  exact mem_cpuFieldWrites_paths root cpu q (runWrites_writes_paths_sub _ fs q h)

theorem cpu_apply_read_isSome (root : FPath) (fs : FS) (cpu : LinuxCpu)
    (p : FPath) :
    (((Cpu.apply root fs cpu).fs).read p).isSome = (fs.read p).isSome := by
  rw [cpu_apply_eq_runWrites]
  exact runWrites_read_isSome _ fs p

theorem mem_scope_of_mem_field (root : FPath) (q : FPath)
    (h : q ∈ cpuFieldPaths root) : q ∈ scopeFilePaths root :=
  List.mem_append_left _ h

theorem procs_mem_scope (root : FPath) :
    root ++ [CGROUP_PROCS] ∈ scopeFilePaths root := by
  simp [scopeFilePaths]

theorem controller_apply_dirs (res : LinuxResources) (root : FPath)
    (pid : Nat) (fs : FS) :
    ((Controller.apply res root pid fs).fs).dirs = (create_dir_all fs root).dirs := by
  cases hcpu : res.cpu with
  | none =>
    by_cases hpr : (((create_dir_all fs root)).read (root ++ [CGROUP_PROCS])).isSome
    · rw [controller_apply_nocpu res root pid fs hcpu hpr]
      exact write_dirs _ _ _
    · rw [controller_apply_nocpu_procs_fail res root pid fs hcpu
        (Option.not_isSome_iff_eq_none.mp hpr)]
  | some cpu =>
    cases herr : (Cpu.apply root (create_dir_all fs root) cpu).err with
    | some e =>
      rw [controller_apply_cpu_fail res root pid fs cpu e hcpu herr]
      exact cpu_apply_dirs root _ cpu
    | none =>
      by_cases hpr : (((Cpu.apply root (create_dir_all fs root) cpu).fs).read
          (root ++ [CGROUP_PROCS])).isSome
      · rw [controller_apply_cpu_ok res root pid fs cpu hcpu herr hpr]
        show ((write_cgroup_file _ _ _).1).dirs = _
        rw [write_dirs]
        exact cpu_apply_dirs root _ cpu
      · rw [controller_apply_cpu_ok_procs_fail res root pid fs cpu hcpu herr
          (Option.not_isSome_iff_eq_none.mp hpr)]
        exact cpu_apply_dirs root _ cpu

/-- C4: membership is written last — on a successful call the writes end
with the single pid write to `cgroup.procs`, which no field write touches;
and when the CPU field writes failed, the call fails and never writes the
membership file. -/
theorem controller_apply_attach_last (res : LinuxResources) (root : FPath)
    (pid : Nat) (fs : FS) :
    ((Controller.apply res root pid fs).err = none →
      ∃ ws0, (Controller.apply res root pid fs).writes =
        ws0 ++ [(root ++ [CGROUP_PROCS], Nat.repr pid)] ∧
        root ++ [CGROUP_PROCS] ∉ ws0.map Prod.fst) ∧
    (∀ cpu, res.cpu = some cpu →
      (Cpu.apply root (create_dir_all fs root) cpu).err ≠ none →
      (Controller.apply res root pid fs).err ≠ none ∧
      root ++ [CGROUP_PROCS] ∉ ((Controller.apply res root pid fs).writes).map Prod.fst) := by
  constructor
  · intro h
    cases hcpu : res.cpu with
    | none =>
      by_cases hpr : (((create_dir_all fs root)).read (root ++ [CGROUP_PROCS])).isSome
      · rw [controller_apply_nocpu res root pid fs hcpu hpr]
        exact ⟨[], rfl, by simp⟩
      · rw [controller_apply_nocpu_procs_fail res root pid fs hcpu
          (Option.not_isSome_iff_eq_none.mp hpr)] at h
        exact absurd h (by simp)
    | some cpu =>
      cases herr : (Cpu.apply root (create_dir_all fs root) cpu).err with
      | some e =>
        rw [controller_apply_cpu_fail res root pid fs cpu e hcpu herr] at h
        exact absurd h (by simp)
      | none =>
        by_cases hpr : (((Cpu.apply root (create_dir_all fs root) cpu).fs).read
            (root ++ [CGROUP_PROCS])).isSome
        · rw [controller_apply_cpu_ok res root pid fs cpu hcpu herr hpr]
          refine ⟨(Cpu.apply root (create_dir_all fs root) cpu).writes, rfl, ?_⟩
          intro hc
          exact procs_not_mem_cpuFieldPaths root
            (cpu_apply_writes_paths root _ cpu _ hc)
        · rw [controller_apply_cpu_ok_procs_fail res root pid fs cpu hcpu herr
            (Option.not_isSome_iff_eq_none.mp hpr)] at h
          exact absurd h (by simp)
  · intro cpu hcpu hne
    cases herr : (Cpu.apply root (create_dir_all fs root) cpu).err with
    | none => exact absurd herr hne
    | some e =>
      rw [controller_apply_cpu_fail res root pid fs cpu e hcpu herr]
      refine ⟨by simp, ?_⟩
      intro hc
      exact procs_not_mem_cpuFieldPaths root
        (cpu_apply_writes_paths root _ cpu _ hc)

/-- Witness for C4: a successful call's writes end with the one pid write
to the membership file, which appears in no earlier write. -/
theorem controller_apply_attach_last_witness :
    ∃ ws0, (Controller.apply ⟨some ⟨some 2048, none, none, none, none, none, none⟩⟩
        ["scope"] 42 ⟨[], []⟩).writes =
      ws0 ++ [(["scope"] ++ [CGROUP_PROCS], Nat.repr 42)] ∧
      ["scope"] ++ [CGROUP_PROCS] ∉ ws0.map Prod.fst :=
  (controller_apply_attach_last ⟨some ⟨some 2048, none, none, none, none, none, none⟩⟩
    ["scope"] 42 ⟨[], []⟩).1 (by decide)

/-- C5: the scope directory is ensured (recursively, idempotently) before
any interface write: it exists in the result, creation is a no-op when it
already exists, and a call against a fresh scope creates the directory
chain and succeeds. -/
theorem controller_apply_scope_exists (res : LinuxResources) (root : FPath)
    (pid : Nat) (fs : FS) :
    root ∈ ((Controller.apply res root pid fs).fs).dirs ∧
    (root ∈ fs.dirs → create_dir_all fs root = fs) ∧
    (root ∉ fs.dirs →
      (∀ q ∈ pathInits root, q ∈ ((Controller.apply res root pid fs).fs).dirs) ∧
      (Controller.apply res root pid fs).err = none) := by
  refine ⟨?_, create_dir_all_of_mem fs root, ?_⟩
  · rw [controller_apply_dirs res root pid fs]
    exact root_mem_create_dir_all fs root
  · intro hfresh
    constructor
    · intro q hq
      rw [controller_apply_dirs res root pid fs]
      exact inits_mem_create_dir_all fs root q hfresh hq
    · cases hcpu : res.cpu with
      | none =>
        have hpr : (((create_dir_all fs root)).read (root ++ [CGROUP_PROCS])).isSome :=
          create_dir_all_read_fresh fs root _ hfresh (procs_mem_scope root)
        rw [controller_apply_nocpu res root pid fs hcpu hpr]
      | some cpu =>
        have herr : (Cpu.apply root (create_dir_all fs root) cpu).err = none := by
          rw [cpu_apply_eq_runWrites]
          apply runWrites_err_none
          intro pv hpv
          exact create_dir_all_read_fresh fs root pv.1 hfresh
            (mem_scope_of_mem_field root _ (mem_cpuFieldWrites_paths root cpu _
              (List.mem_map_of_mem Prod.fst hpv)))
        have hpr : (((Cpu.apply root (create_dir_all fs root) cpu).fs).read
            (root ++ [CGROUP_PROCS])).isSome := by
          rw [cpu_apply_read_isSome]
          exact create_dir_all_read_fresh fs root _ hfresh (procs_mem_scope root)
        rw [controller_apply_cpu_ok res root pid fs cpu hcpu herr hpr]

/-- Witness for C5: applying against a not-yet-existing scope creates it
and succeeds. -/
theorem controller_apply_scope_exists_witness :
    ["scope"] ∈ ((Controller.apply ⟨some ⟨some 2048, none, none, none, none, none, none⟩⟩
        ["scope"] 7 ⟨[], []⟩).fs).dirs ∧
    (Controller.apply ⟨some ⟨some 2048, none, none, none, none, none, none⟩⟩
        ["scope"] 7 ⟨[], []⟩).err = none :=
  ⟨(controller_apply_scope_exists ⟨some ⟨some 2048, none, none, none, none, none, none⟩⟩
      ["scope"] 7 ⟨[], []⟩).1,
   ((controller_apply_scope_exists ⟨some ⟨some 2048, none, none, none, none, none, none⟩⟩
      ["scope"] 7 ⟨[], []⟩).2.2 (by decide)).2⟩

/-- C9: with the cpu sub-group entirely absent, the Controller apply still
creates the scope directory if missing, writes no interface file, writes
the target pid to the membership file, and succeeds. -/
theorem controller_apply_without_cpu (res : LinuxResources) (root : FPath)
    (pid : Nat) (fs : FS) (hcpu : res.cpu = none)
    (hok : root ∉ fs.dirs ∨ (fs.read (root ++ [CGROUP_PROCS])).isSome) :
    (Controller.apply res root pid fs).err = none ∧
    root ∈ ((Controller.apply res root pid fs).fs).dirs ∧
    (Controller.apply res root pid fs).writes =
      [(root ++ [CGROUP_PROCS], Nat.repr pid)] ∧
    ((Controller.apply res root pid fs).fs).read (root ++ [CGROUP_PROCS]) =
      some (Nat.repr pid) := by
  have hpr : (((create_dir_all fs root)).read (root ++ [CGROUP_PROCS])).isSome := by
    rcases hok with hfresh | hex
    · exact create_dir_all_read_fresh fs root _ hfresh (procs_mem_scope root)
    · exact create_dir_all_read_isSome fs root _ hex
  rw [controller_apply_nocpu res root pid fs hcpu hpr]
  refine ⟨rfl, ?_, rfl, ?_⟩
  · show root ∈ ((write_cgroup_file _ _ _).1).dirs
    rw [write_dirs]
    exact root_mem_create_dir_all fs root
  · exact write_read_self _ _ _ hpr

/-- Witness for C9: an absent cpu sub-group against a fresh scope — the
call succeeds, creates the scope, and only attaches the pid. -/
theorem controller_apply_without_cpu_witness :
    (Controller.apply ⟨none⟩ ["scope"] 9 ⟨[], []⟩).err = none ∧
    ["scope"] ∈ ((Controller.apply ⟨none⟩ ["scope"] 9 ⟨[], []⟩).fs).dirs ∧
    (Controller.apply ⟨none⟩ ["scope"] 9 ⟨[], []⟩).writes =
      [(["scope"] ++ [CGROUP_PROCS], Nat.repr 9)] ∧
    ((Controller.apply ⟨none⟩ ["scope"] 9 ⟨[], []⟩).fs).read
      (["scope"] ++ [CGROUP_PROCS]) = some (Nat.repr 9) :=
  controller_apply_without_cpu ⟨none⟩ ["scope"] 9 ⟨[], []⟩ rfl
    (Or.inl (by decide))

/-- C10: one Controller apply call writes only, inside the scope, the five
CPU interface files and the membership file; the content of every other
file is unchanged by the call. -/
theorem controller_apply_scope_frame (res : LinuxResources) (root : FPath)
    (pid : Nat) (fs : FS) :
    (∀ q ∈ ((Controller.apply res root pid fs).writes).map Prod.fst,
      q ∈ scopeFilePaths root) ∧
    (∀ p, p ∉ scopeFilePaths root →
      ((Controller.apply res root pid fs).fs).read p = fs.read p) := by
  constructor
  · intro q hq
    cases hcpu : res.cpu with
    | none =>
      by_cases hpr : (((create_dir_all fs root)).read (root ++ [CGROUP_PROCS])).isSome
      · rw [controller_apply_nocpu res root pid fs hcpu hpr] at hq
        simp only [List.map_cons, List.map_nil, List.mem_singleton] at hq
        rw [hq]
        exact procs_mem_scope root
      · rw [controller_apply_nocpu_procs_fail res root pid fs hcpu
          (Option.not_isSome_iff_eq_none.mp hpr)] at hq
        simp at hq
    | some cpu =>
      cases herr : (Cpu.apply root (create_dir_all fs root) cpu).err with
      | some e =>
        rw [controller_apply_cpu_fail res root pid fs cpu e hcpu herr] at hq
        exact mem_scope_of_mem_field root q (cpu_apply_writes_paths root _ cpu q hq)
      | none =>
        by_cases hpr : (((Cpu.apply root (create_dir_all fs root) cpu).fs).read
            (root ++ [CGROUP_PROCS])).isSome
        · rw [controller_apply_cpu_ok res root pid fs cpu hcpu herr hpr] at hq
          simp only [List.map_append, List.mem_append, List.map_cons,
            List.map_nil, List.mem_singleton] at hq
          rcases hq with hq | hq
          · exact mem_scope_of_mem_field root q (cpu_apply_writes_paths root _ cpu q hq)
          · rw [hq]
            exact procs_mem_scope root
        · rw [controller_apply_cpu_ok_procs_fail res root pid fs cpu hcpu herr
            (Option.not_isSome_iff_eq_none.mp hpr)] at hq
          exact mem_scope_of_mem_field root q (cpu_apply_writes_paths root _ cpu q hq)
  · intro p hp
    have hpf : p ∉ cpuFieldPaths root := fun hc => hp (mem_scope_of_mem_field root p hc)
    have hppr : p ≠ root ++ [CGROUP_PROCS] := fun hc => hp (hc ▸ procs_mem_scope root)
    cases hcpu : res.cpu with
    | none =>
      by_cases hpr : (((create_dir_all fs root)).read (root ++ [CGROUP_PROCS])).isSome
      · rw [controller_apply_nocpu res root pid fs hcpu hpr]
        show ((write_cgroup_file _ _ _).1).read p = fs.read p
        rw [write_read_ne _ p _ _ hppr]
        exact create_dir_all_read_frame fs root p hp
      · rw [controller_apply_nocpu_procs_fail res root pid fs hcpu
          (Option.not_isSome_iff_eq_none.mp hpr)]
        exact create_dir_all_read_frame fs root p hp
    | some cpu =>
      cases herr : (Cpu.apply root (create_dir_all fs root) cpu).err with
      | some e =>
        rw [controller_apply_cpu_fail res root pid fs cpu e hcpu herr]
        show ((Cpu.apply root (create_dir_all fs root) cpu).fs).read p = fs.read p
        rw [cpu_apply_read_frame root _ cpu p hpf]
        exact create_dir_all_read_frame fs root p hp
      | none =>
        by_cases hpr : (((Cpu.apply root (create_dir_all fs root) cpu).fs).read
            (root ++ [CGROUP_PROCS])).isSome
        · rw [controller_apply_cpu_ok res root pid fs cpu hcpu herr hpr]
          show ((write_cgroup_file _ _ _).1).read p = fs.read p
          rw [write_read_ne _ p _ _ hppr]
          rw [cpu_apply_read_frame root _ cpu p hpf]
          exact create_dir_all_read_frame fs root p hp
        · rw [controller_apply_cpu_ok_procs_fail res root pid fs cpu hcpu herr
            (Option.not_isSome_iff_eq_none.mp hpr)]
          show ((Cpu.apply root (create_dir_all fs root) cpu).fs).read p = fs.read p
          rw [cpu_apply_read_frame root _ cpu p hpf]
          exact create_dir_all_read_frame fs root p hp

/-- Witness for C10: a file outside the scope's six interface files keeps
its content across the call. -/
theorem controller_apply_scope_frame_witness :
    ((Controller.apply ⟨some ⟨some 2048, none, none, none, none, none, none⟩⟩
        ["scope"] 42 ⟨[], [(["other", "file"], "keep")]⟩).fs).read
      ["other", "file"] =
      (⟨[], [(["other", "file"], "keep")]⟩ : FS).read ["other", "file"] :=
  (controller_apply_scope_frame ⟨some ⟨some 2048, none, none, none, none, none, none⟩⟩
    ["scope"] 42 ⟨[], [(["other", "file"], "keep")]⟩).2 ["other", "file"] (by decide)
